import Mathlib

/-!
Shallow embedding of `src/Traceroute/main.go` (Goganad/Traceroute).

The program is single-threaded; the only effects are socket operations,
wall-clock reads, reverse-DNS lookups and printing.  We embed them by
passing the environment's answers explicitly:

* each probe attempt receives an `AttemptEnv` describing what the network
  did (result of `WriteTo`, of `ReadFrom`, of `icmp.ParseMessage`, and the
  measured round-trip time);
* a whole `socketExchange` call receives an `ExchangeEnv` (whether
  `ListenPacket` / `SetReadDeadline` succeeded, plus one `AttemptEnv` per
  attempt index);
* `net.LookupAddr` is a function `String → List String` (the names
  returned; an error or no answer is the empty list, matching the code,
  which ignores the error and only tests `len(ptr) > 0`);
* printing is modelled by returning the reported line as a `HopReport`.

Durations are naturals, addresses are the strings `net.Addr.String()`
produces.  `socketExchange` additionally returns the ordered list of
socket events it performed (`Event`), so that statements about *when* the
read deadline is set, or which attempts ever send, are expressible.
-/

namespace Traceroute

/-- `AttemptsCount` constant from the source. -/
def AttemptsCount : Nat := 3

/-- `MaxTTL` constant from the source. -/
def MaxTTL : Nat := 64

/-- `MaxWaitSec` constant from the source. -/
def MaxWaitSec : Nat := 4

/-- `MsgLength` constant from the source. -/
def MsgLength : Nat := 56

/-- `ipv4.ICMPTypeEchoReply` (value 0). -/
def ICMPTypeEchoReply : Nat := 0

/-- `ipv4.ICMPTypeDestinationUnreachable` (value 3). -/
def ICMPTypeDestinationUnreachable : Nat := 3

/-- `ipv4.ICMPTypeTimeExceeded` (value 11). -/
def ICMPTypeTimeExceeded : Nat := 11

/-- A parsed ICMP message; the program only ever inspects `msg.Type`. -/
structure ICMPMsg where
  msgType : Nat
  deriving DecidableEq, Repr

/-- The distinct `error` values `socketExchange` can return. -/
inductive TrError where
  /-- `net.ListenPacket` failed. -/
  | listenFailed
  /-- `connection.SetReadDeadline` failed. -/
  | deadlineFailed
  /-- `connection.WriteTo` returned an error. -/
  | sendFailed
  /-- short write: `fmt.Errorf("got %v; want %v", n, len(b))`. -/
  | sendShort (got want : Nat)
  /-- `connection.ReadFrom` returned an error (read deadline expired). -/
  | readTimeout
  /-- `connection.ReadFrom` returned some other error. -/
  | readFailed
  /-- `icmp.ParseMessage` returned an error. -/
  | parseFailed
  /-- `fmt.Errorf("got %+v from %v; Invalid ICMPType", msg, peer)`. -/
  | invalidType (msg : Option ICMPMsg) (peer : Option String)
  deriving DecidableEq, Repr

/-- What the network does on one attempt of the loop in `socketExchange`:
the result of `connection.WriteTo` (bytes written, or an error), of
`connection.ReadFrom` (the responder address, or an error), of
`icmp.ParseMessage` on the received bytes, and the measured round-trip
time `time.Since(start)`. -/
structure AttemptEnv where
  writeResult : Except TrError Nat
  readResult : Except TrError String
  parseResult : Except TrError ICMPMsg
  rtt : Nat
  deriving Repr

/-- The environment of one whole `socketExchange` call. -/
structure ExchangeEnv where
  listenResult : Option TrError
  deadlineResult : Option TrError
  attempt : Nat → AttemptEnv

/-- Socket operations performed by `socketExchange`, in order. -/
inductive Event where
  /-- `net.ListenPacket("ip4:icmp", "0.0.0.0")`. -/
  | listen
  /-- `connection.SetReadDeadline(time.Now().Add(MaxWaitSec * time.Second))`. -/
  | setReadDeadline
  /-- `p.SetTTL(ttl)`. -/
  | setTTL (ttl : Nat)
  /-- `connection.WriteTo` of attempt `i`. -/
  | send (i : Nat)
  /-- `connection.ReadFrom` of attempt `i`. -/
  | recv (i : Nat)
  /-- the deferred `connection.Close()`. -/
  | closeConn
  deriving DecidableEq, Repr

/-- The mutable state of the attempt loop in `socketExchange`:
`durationsArray`, `peersArray`, the running classification `t`
(initialised to `ipv4.ICMPTypeTimeExceeded`), and the last parsed
message / last responder (`msg`, `peer` in the source, used by the
`default` arm of the final `switch`). -/
structure LoopState where
  durations : List Nat
  peers : List String
  t : Nat
  lastMsg : Option ICMPMsg
  lastPeer : Option String
  deriving DecidableEq, Repr

/-- `durationsArray`, `peersArray` empty, `t = ipv4.ICMPTypeTimeExceeded`,
no message parsed yet. -/
def initLoopState : LoopState :=
  { durations := [], peers := [], t := ICMPTypeTimeExceeded,
    lastMsg := none, lastPeer := none }

/-- One iteration of the attempt loop body of `socketExchange`, given the
network's answers `a` and the loop state `st`.  Mirrors the source:
`WriteTo` error → return the error; short write → return
`fmt.Errorf("got %v; want %v", ...)`; `ReadFrom` error → return it;
otherwise append the duration and the responder, parse the reply
(error → return it), and set `t` to `EchoReply` when the parsed type is
`EchoReply` (any other type leaves `t` unchanged). -/
def stepAttempt (bLen : Nat) (a : AttemptEnv) (st : LoopState) :
    Except TrError LoopState :=
  match a.writeResult with
  | .error e => .error e
  | .ok n =>
    if n ≠ bLen then .error (TrError.sendShort n bLen)
    else
      match a.readResult with
      | .error e => .error e
      | .ok peer =>
        match a.parseResult with
        | .error e => .error e
        | .ok msg =>
          .ok { durations := st.durations ++ [a.rtt]
                peers := st.peers ++ [peer]
                t := if msg.msgType = ICMPTypeEchoReply then ICMPTypeEchoReply else st.t
                lastMsg := some msg
                lastPeer := some peer }

/-- The socket events performed by one iteration of the attempt loop:
the write always happens; the read happens unless the write failed or
was short (the source returns before `ReadFrom` in those two cases). -/
def stepEvents (bLen : Nat) (a : AttemptEnv) (i : Nat) : List Event :=
  match a.writeResult with
  | .error _ => [Event.send i]
  | .ok n => if n ≠ bLen then [Event.send i] else [Event.send i, Event.recv i]

/-- The error produced by one attempt of the loop, independent of loop
state: `none` when the attempt runs to completion (write of exactly
`bLen` bytes, a reply read, the reply parsed), `some e` when it makes
`socketExchange` return the error `e`. -/
def attemptOutcome (bLen : Nat) (a : AttemptEnv) : Option TrError :=
  match stepAttempt bLen a initLoopState with
  | .error e => some e
  | .ok _ => none

/-- The attempt loop `for i := 0; i < attempts; i++ { ... }` of
`socketExchange`, returning the events performed and either the final
loop state or the first error, which aborts the loop. -/
def runAttempts (env : Nat → AttemptEnv) (bLen : Nat) :
    Nat → Nat → LoopState → List Event × Except TrError LoopState
  | _, 0, st => ([], Except.ok st)
  | i, r + 1, st =>
    match stepAttempt bLen (env i) st with
    | .error e => (stepEvents bLen (env i) i, Except.error e)
    | .ok st' =>
      let rest := runAttempts env bLen (i + 1) r st'
      (stepEvents bLen (env i) i ++ rest.1, rest.2)

/-- The four values `socketExchange` returns:
`([]time.Duration, []net.Addr, *ipv4.ICMPType, error)`. -/
structure ExchangeResult where
  durations : List Nat
  peers : List String
  icmpType : Option Nat
  err : Option TrError
  deriving DecidableEq, Repr

/-- `socketExchange(destination, b, ttl, attempts)`.  `bLen` is `len(b)`
(the only fact about the probe bytes the function's logic consumes), and
`env` is the network environment of the call.  Returns the socket events
performed and the four result values.  Mirrors the source:
`ListenPacket` error → return; `SetReadDeadline` (set once, before the
loop) error → return `([]time.Duration{0}, ...)`; `SetTTL`; run the
attempt loop, any attempt error → return `([]time.Duration{0}, ...)`
with that error; then `switch t`: `EchoReply` and `TimeExceeded` return
the collected lists with `&t` and nil error, anything else returns the
`Invalid ICMPType` error. -/
def socketExchange (env : ExchangeEnv) (bLen ttl attempts : Nat) :
    List Event × ExchangeResult :=
  match env.listenResult with
  | some e => ([Event.listen], ⟨[], [], none, some e⟩)
  | none =>
    match env.deadlineResult with
    | some e =>
      ([Event.listen, Event.setReadDeadline, Event.closeConn],
        ⟨[0], [], none, some e⟩)
    | none =>
      let run := runAttempts env.attempt bLen 0 attempts initLoopState
      let evs := Event.listen :: Event.setReadDeadline :: Event.setTTL ttl ::
        (run.1 ++ [Event.closeConn])
      match run.2 with
      | .error e => (evs, ⟨[0], [], none, some e⟩)
      | .ok st =>
        if st.t = ICMPTypeEchoReply then
          (evs, ⟨st.durations, st.peers, some st.t, none⟩)
        else if st.t = ICMPTypeTimeExceeded then
          (evs, ⟨st.durations, st.peers, some st.t, none⟩)
        else
          (evs, ⟨[0], [], none, some (TrError.invalidType st.lastMsg st.lastPeer)⟩)

/-- The 4-byte chunk `[]byte("DATA")` used by `buildEchoRequest`. -/
def dataChunk : List Nat := [68, 65, 84, 65]

/-- The payload buffer filled by `buildEchoRequest`: write `dataChunk`
`size / len(dataChunk)` times, then, if `diff := size - buf.Len()` is
positive, write `dataChunk[:diff]`. -/
def buildPayload (size : Nat) : List Nat :=
  let base := List.flatten (List.replicate (size / dataChunk.length) dataChunk)
  let diff := size - base.length
  if 0 < diff then base ++ dataChunk.take diff else base

/-- Length of the marshaled probe `buildEchoRequest` hands to
`socketExchange` via `ping`: `icmp.Message.Marshal` produces the 8-byte
ICMP echo header followed by the body data.  Only the length of the
probe bytes is observable in the embedded logic (the reply is produced
by the environment), so the header contents are not modelled. -/
def probeLen : Nat := 8 + (buildPayload MsgLength).length

/-- The `peersAreIdentical` scan in `createPeersString`:
`for i := 0; i < len(peersArray)-1; i++` comparing
`peersArray[i].String()` with `peersArray[i+1].String()`. -/
def allIdentical (l : List String) : Bool :=
  (List.range (l.length - 1)).all (fun i => l.getD i "" == l.getD (i + 1) "")

/-- The parenthesised reverse-DNS suffix built from the `ptr` slice in
`createPeersString`: when `len(ptr) > 0`, start from `" ("`, append each
name with its last character stripped (`ptr[j][:len(ptr[j])-1]`)
followed by two spaces, drop the final two spaces, close with `")"`;
otherwise the empty string. -/
def ptrSuffix (ptr : List String) : String :=
  if 0 < ptr.length then
    let inner := ptr.foldl (fun acc name => acc ++ name.dropRight 1 ++ "  ") " ("
    inner.dropRight 2 ++ ")"
  else ""

/-- `createPeersString(peersArray)`, with `net.LookupAddr` supplied as
`lookup` (the names it returns; empty on error, as the code ignores the
error and only tests `len(ptr) > 0`).  Mirrors the source: collapse the
array to its first element when all entries are textually identical,
then for each entry look up `peersArray[0].String()` (the source reads
index `0` inside the loop), append the entry, its suffix and two spaces
onto `"["`, and finally replace the trailing two spaces with `"]"`. -/
def createPeersString (lookup : String → List String) (peers0 : List String) :
    String :=
  let peersArray := if allIdentical peers0 then [peers0.getD 0 ""] else peers0
  let buffStr := peersArray.foldl
    (fun acc p =>
      let ptr := lookup (peersArray.getD 0 "")
      acc ++ p ++ ptrSuffix ptr ++ "  ") "["
  buffStr.dropRight 2 ++ "]"

/-- The per-hop line `ping` prints (or does not print). -/
inductive HopReport where
  /-- `"%3d %13s     Reached  %s\n"` with the durations and peers string. -/
  | reached (durations : List Nat) (peers : String)
  /-- `"%3d %13s   TTLExc at  %s\n"` with the durations and peers string. -/
  | ttlExc (durations : List Nat) (peers : String)
  /-- `"%3d ERROR\n"`. -/
  | errorLine
  /-- nothing printed (`err == nil` but `t == nil`, or an unexpected type). -/
  | silent
  deriving DecidableEq, Repr

/-- `ping(dest, ttl)`: build the echo request (its bytes have length
`probeLen`), run `socketExchange` with `AttemptsCount` attempts, and
report: nil error and `*t = EchoReply` → `Reached` line, return `true`;
nil error and `*t = TimeExceeded` → `TTLExc` line, return `false`; nil
error otherwise → no line, return `false`; non-nil error → `ERROR`
line, return `false`. -/
def ping (lookup : String → List String) (env : ExchangeEnv) (ttl : Nat) :
    Bool × HopReport :=
  let res := (socketExchange env probeLen ttl AttemptsCount).2
  match res.err with
  | none =>
    match res.icmpType with
    | some t =>
      if t = ICMPTypeEchoReply then
        (true, HopReport.reached res.durations (createPeersString lookup res.peers))
      else if t = ICMPTypeTimeExceeded then
        (false, HopReport.ttlExc res.durations (createPeersString lookup res.peers))
      else (false, HopReport.silent)
    | none => (false, HopReport.silent)
  | some _ => (false, HopReport.errorLine)

/-- Terminal states of the hop-limit sweep. -/
inductive TraceState where
  /-- the loop is still sweeping at hop-limit `h` (never a final state). -/
  | sweeping (h : Nat)
  /-- the loop exited via `break`: `ping` returned `true`. -/
  | reached
  /-- the loop exited via `i > MaxTTL`. -/
  | exhausted
  deriving DecidableEq, Repr

/-- The loop `for i := 1; i <= MaxTTL; i++ { if ping(destination, i) break }`
of `tracert`, run from hop-limit `i` with `r` iterations remaining.
`env h` is the network environment of the exchange at hop-limit `h`.
Returns the `(hop, report)` pairs in probe order and the terminal
state. -/
def sweepAux (lookup : String → List String) (env : Nat → ExchangeEnv) :
    Nat → Nat → List (Nat × HopReport) × TraceState
  | _, 0 => ([], TraceState.exhausted)
  | i, r + 1 =>
    let p := ping lookup (env i) i
    if p.1 then ([(i, p.2)], TraceState.reached)
    else
      let rest := sweepAux lookup env (i + 1) r
      ((i, p.2) :: rest.1, rest.2)

/-- `tracert` after a successful destination resolution: the sweep from
hop-limit 1 with at most `MaxTTL` iterations.  (A resolution failure
prints `Invalid address` and returns before any probing; the sweep is
the part the claims are about.) -/
def tracert (lookup : String → List String) (env : Nat → ExchangeEnv) :
    List (Nat × HopReport) × TraceState :=
  sweepAux lookup env 1 MaxTTL

/-- Whether `ping` returns `true` at hop-limit `h` (the `break`
condition of the sweep). -/
def pingB (lookup : String → List String) (env : Nat → ExchangeEnv) (h : Nat) :
    Bool :=
  (ping lookup (env h) h).1

/-! ## Helper lemmas about the packet builder -/

/-- Length of `q` repetitions of the 4-byte chunk. -/
theorem length_flatten_rep (q : Nat) :
    (List.flatten (List.replicate q dataChunk)).length = 4 * q := by
  induction q with
  | zero => rfl
  | succ n ih =>
    simp only [List.replicate_succ, List.flatten_cons, List.length_append, ih]
    have hc : dataChunk.length = 4 := rfl
    omega

/-- The buffer `buildEchoRequest` fills is exactly the first `S` bytes of
`S / 4 + 1` repetitions of the chunk. -/
theorem buildPayload_eq_take (S : Nat) :
    buildPayload S =
      (List.flatten (List.replicate (S / 4 + 1) dataChunk)).take S := by
  have hc : dataChunk.length = 4 := rfl
  have hbase := length_flatten_rep (S / 4)
  have hsucc : List.flatten (List.replicate (S / 4 + 1) dataChunk)
      = List.flatten (List.replicate (S / 4) dataChunk) ++ dataChunk := by
    rw [List.replicate_succ', List.flatten_append]
    simp
  rw [hsucc]
  simp only [buildPayload, hc, hbase]
  rcases Nat.eq_zero_or_pos (S % 4) with h0 | hpos
  · have hneg : ¬ 0 < S - 4 * (S / 4) := by omega
    rw [if_neg hneg]
    exact (List.take_left' (by omega)).symm
  · have hpos' : 0 < S - 4 * (S / 4) := by omega
    rw [if_pos hpos']
    have htl : List.take S (List.flatten (List.replicate (S / 4) dataChunk))
        = List.flatten (List.replicate (S / 4) dataChunk) :=
      List.take_of_length_le (by simp only [hbase]; omega)
    rw [List.take_append_eq_append_take, htl, hbase]

/-! ## Helper lemmas about the address presenter -/

/-- `getD` on a replicated list, inside the bound. -/
theorem getD_replicate_of_lt (a : String) {n i : Nat} (h : i < n) :
    (List.replicate n a).getD i "" = a := by
  simp [List.getD_eq_getElem?_getD, List.getElem?_replicate, h]

/-- The `peersAreIdentical` scan accepts every replicated list. -/
theorem allIdentical_replicate (a : String) (n : Nat) :
    allIdentical (List.replicate n a) = true := by
  unfold allIdentical
  rw [List.all_eq_true]
  intro i hi
  simp only [List.mem_range, List.length_replicate] at hi
  have h1 : i < n := by omega
  have h2 : i + 1 < n := by omega
  rw [getD_replicate_of_lt a h1, getD_replicate_of_lt a h2]
  simp

/-! ## Helper lemmas about the probe transport -/

/-- An attempt whose outcome is an error makes the loop body return that
error, whatever the loop state. -/
theorem stepAttempt_of_err (bLen : Nat) (a : AttemptEnv) (st : LoopState)
    {e : TrError} (h : attemptOutcome bLen a = some e) :
    stepAttempt bLen a st = Except.error e := by
  rcases a with ⟨wr, rr, pr, rtt⟩
  cases wr with
  | error e' =>
    simp only [attemptOutcome, stepAttempt, Option.some.injEq] at h
    simp [stepAttempt, h]
  | ok n =>
    by_cases hn : n = bLen
    · subst hn
      cases rr with
      | error e' =>
        simp only [attemptOutcome, stepAttempt, ne_eq, not_true_eq_false, if_false,
          ite_self, Option.some.injEq] at h
        simp_all [stepAttempt]
      | ok p =>
        cases pr with
        | error e' => simp_all [attemptOutcome, stepAttempt]
        | ok m => simp [attemptOutcome, stepAttempt] at h
    · simp_all [attemptOutcome, stepAttempt, hn]

/-- An attempt whose outcome is `none` ran to completion: the write wrote
exactly `bLen` bytes, a responder `p` was read, a message `m` was
parsed, and the loop body extends the state accordingly. -/
theorem stepAttempt_of_ok (bLen : Nat) (a : AttemptEnv) (st : LoopState)
    (h : attemptOutcome bLen a = none) :
    a.writeResult = Except.ok bLen ∧
    ∃ p m, a.readResult = Except.ok p ∧ a.parseResult = Except.ok m ∧
      stepAttempt bLen a st = Except.ok
        { durations := st.durations ++ [a.rtt], peers := st.peers ++ [p],
          t := if m.msgType = ICMPTypeEchoReply then ICMPTypeEchoReply else st.t,
          lastMsg := some m, lastPeer := some p } := by
  rcases a with ⟨wr, rr, pr, rtt⟩
  cases wr with
  | error e => simp [attemptOutcome, stepAttempt] at h
  | ok n =>
    by_cases hn : n = bLen
    · subst hn
      cases rr with
      | error e => simp [attemptOutcome, stepAttempt] at h
      | ok p =>
        cases pr with
        | error e => simp [attemptOutcome, stepAttempt] at h
        | ok m => exact ⟨rfl, p, m, rfl, rfl, by simp [stepAttempt]⟩
    · simp [attemptOutcome, stepAttempt, hn] at h

/-- A successful loop body appends exactly one duration and one peer. -/
theorem stepAttempt_ok_lengths {bLen : Nat} {a : AttemptEnv}
    {st st₂ : LoopState} (h : stepAttempt bLen a st = Except.ok st₂) :
    st₂.durations.length = st.durations.length + 1 ∧
    st₂.peers.length = st.peers.length + 1 := by
  rcases a with ⟨wr, rr, pr, rtt⟩
  cases wr with
  | error e => simp [stepAttempt] at h
  | ok n =>
    by_cases hn : n = bLen
    · subst hn
      cases rr with
      | error e => simp [stepAttempt] at h
      | ok p =>
        cases pr with
        | error e => simp [stepAttempt] at h
        | ok m =>
          simp only [stepAttempt, ne_eq, not_true_eq_false, if_false, ite_self,
            Except.ok.injEq] at h
          subst h
          simp
    · simp [stepAttempt, hn] at h

/-- The only send event of one loop iteration is the iteration's own. -/
theorem send_mem_stepEvents {bLen : Nat} {a : AttemptEnv} {i j : Nat}
    (h : Event.send j ∈ stepEvents bLen a i) : j = i := by
  rcases a with ⟨wr, rr, pr, rtt⟩
  cases wr with
  | error e => simp [stepEvents] at h; exact h
  | ok n =>
    by_cases hn : n = bLen
    · subst hn; simp [stepEvents] at h; exact h
    · simp [stepEvents, hn] at h; exact h

/-- No loop iteration sets the read deadline. -/
theorem deadline_not_mem_stepEvents (bLen : Nat) (a : AttemptEnv) (i : Nat) :
    Event.setReadDeadline ∉ stepEvents bLen a i := by
  rcases a with ⟨wr, rr, pr, rtt⟩
  cases wr with
  | error e => simp [stepEvents]
  | ok n =>
    by_cases hn : n = bLen
    · subst hn; simp [stepEvents]
    · simp [stepEvents, hn]

/-- An attempt whose outcome is `none` lets the loop body produce some
successor state. -/
theorem stepAttempt_ok_exists (bLen : Nat) (a : AttemptEnv) (st : LoopState)
    (h : attemptOutcome bLen a = none) :
    ∃ st₂, stepAttempt bLen a st = Except.ok st₂ := by
  obtain ⟨-, p, m, -, -, hstep⟩ := stepAttempt_of_ok bLen a st h
  exact ⟨_, hstep⟩

/-- A loop that exits normally has appended one duration and one peer
per attempt. -/
theorem runAttempts_ok_lengths (env : Nat → AttemptEnv) (bLen : Nat) :
    ∀ r i st st', (runAttempts env bLen i r st).2 = Except.ok st' →
      st'.durations.length = st.durations.length + r ∧
      st'.peers.length = st.peers.length + r := by
  intro r
  induction r with
  | zero =>
    intro i st st' h
    simp only [runAttempts, Except.ok.injEq] at h
    subst h
    simp
  | succ n ih =>
    intro i st st' h
    simp only [runAttempts] at h
    cases hstep : stepAttempt bLen (env i) st with
    | error e => rw [hstep] at h; simp at h
    | ok st₂ =>
      rw [hstep] at h
      have h1 := stepAttempt_ok_lengths hstep
      have h2 := ih (i + 1) st₂ st' h
      omega

/-- If the attempts before index `k` run to completion and attempt `k`
errs with `e`, the loop returns the error `e` and never sends the probe
of any attempt after `k`. -/
theorem runAttempts_abort (env : Nat → AttemptEnv) (bLen : Nat) :
    ∀ k i r st e,
      (∀ m, m < k → attemptOutcome bLen (env (i + m)) = none) →
      attemptOutcome bLen (env (i + k)) = some e →
      k < r →
      (runAttempts env bLen i r st).2 = Except.error e ∧
      ∀ j, i + k < j → Event.send j ∉ (runAttempts env bLen i r st).1 := by
  intro k
  induction k with
  | zero =>
    intro i r st e hpre hfail hk
    cases r with
    | zero => omega
    | succ r' =>
      rw [Nat.add_zero] at hfail
      have hstep : stepAttempt bLen (env i) st = Except.error e :=
        stepAttempt_of_err bLen (env i) st hfail
      constructor
      · simp only [runAttempts]
        rw [hstep]
      · intro j hj
        simp only [runAttempts]
        rw [hstep]
        intro hmem
        have := send_mem_stepEvents hmem
        omega
  | succ n ih =>
    intro i r st e hpre hfail hk
    cases r with
    | zero => omega
    | succ r' =>
      have h0 : attemptOutcome bLen (env i) = none := by
        have := hpre 0 (by omega)
        rwa [Nat.add_zero] at this
      obtain ⟨st₂, hstep⟩ := stepAttempt_ok_exists bLen (env i) st h0
      have hpre' : ∀ m', m' < n → attemptOutcome bLen (env (i + 1 + m')) = none := by
        intro m' hm'
        have := hpre (m' + 1) (by omega)
        rwa [show i + (m' + 1) = i + 1 + m' by omega] at this
      have hfail' : attemptOutcome bLen (env (i + 1 + n)) = some e := by
        rwa [show i + 1 + n = i + (n + 1) by omega]
      have ihh := ih (i + 1) r' st₂ e hpre' hfail' (by omega)
      constructor
      · simp only [runAttempts]
        rw [hstep]
        exact ihh.1
      · intro j hj
        simp only [runAttempts]
        rw [hstep]
        intro hmem
        rcases List.mem_append.mp hmem with hm | hm
        · have := send_mem_stepEvents hm
          omega
        · exact ihh.2 j (by omega) hm

/-- The attempt loop never sets the read deadline. -/
theorem runAttempts_no_deadline (env : Nat → AttemptEnv) (bLen : Nat) :
    ∀ r i st, Event.setReadDeadline ∉ (runAttempts env bLen i r st).1 := by
  intro r
  induction r with
  | zero => intro i st; simp [runAttempts]
  | succ n ih =>
    intro i st
    simp only [runAttempts]
    cases hstep : stepAttempt bLen (env i) st with
    | error e =>
      exact deadline_not_mem_stepEvents bLen (env i) i
    | ok st₂ =>
      intro hmem
      rcases List.mem_append.mp hmem with hm | hm
      · exact deadline_not_mem_stepEvents bLen (env i) i hm
      · exact ih (i + 1) st₂ hm

/-- When socket creation and deadline configuration succeed, the event
trace of `socketExchange` is: listen, set the read deadline, set the
TTL, the loop events, close. -/
theorem socketExchange_events (env : ExchangeEnv) (bLen ttl attempts : Nat)
    (hl : env.listenResult = none) (hd : env.deadlineResult = none) :
    (socketExchange env bLen ttl attempts).1 =
      Event.listen :: Event.setReadDeadline :: Event.setTTL ttl ::
        ((runAttempts env.attempt bLen 0 attempts initLoopState).1 ++
          [Event.closeConn]) := by
  unfold socketExchange
  rw [hl, hd]
  dsimp only
  split
  · rfl
  · split
    · rfl
    · split
      · rfl
      · rfl

/-- A successful exchange ran the whole loop: the listen and deadline
configuration succeeded, the loop exited normally with some final state
whose classification is `EchoReply` or `TimeExceeded`, and the result
carries that state's lists and classification. -/
theorem socketExchange_success (env : ExchangeEnv) (bLen ttl attempts : Nat)
    (h : (socketExchange env bLen ttl attempts).2.err = none) :
    ∃ st, (runAttempts env.attempt bLen 0 attempts initLoopState).2 = Except.ok st ∧
      (st.t = ICMPTypeEchoReply ∨ st.t = ICMPTypeTimeExceeded) ∧
      (socketExchange env bLen ttl attempts).2 =
        ⟨st.durations, st.peers, some st.t, none⟩ := by
  cases hl : env.listenResult with
  | some e => simp only [socketExchange, hl] at h; exact Option.noConfusion h
  | none =>
    cases hd : env.deadlineResult with
    | some e => simp only [socketExchange, hl, hd] at h; exact Option.noConfusion h
    | none =>
      simp only [socketExchange, hl, hd] at h ⊢
      cases hrun : (runAttempts env.attempt bLen 0 attempts initLoopState).2 with
      | error e =>
        rw [hrun] at h
        exact Option.noConfusion h
      | ok st =>
        by_cases h1 : st.t = ICMPTypeEchoReply
        · exact ⟨st, rfl, Or.inl h1, by simp [h1]⟩
        · by_cases h2 : st.t = ICMPTypeTimeExceeded
          · exact ⟨st, rfl, Or.inr h2, by simp [h1, h2]⟩
          · rw [hrun] at h
            simp [h1, h2] at h

/-! ## Helper lemmas about the trace controller -/

/-- Combined invariants of the sweep loop run from hop-limit `i` with
`r` iterations remaining: the probed hops are consecutive from `i`, at
most `r` hops are probed, the final state is terminal, `reached` holds
exactly when the last probed hop is the first with a `true` ping, and
`exhausted` means all `r` hops were probed and none pinged `true`. -/
theorem sweepAux_spec (lookup : String → List String) (env : Nat → ExchangeEnv) :
    ∀ r i,
      (sweepAux lookup env i r).1.map Prod.fst =
        List.range' i (sweepAux lookup env i r).1.length ∧
      (sweepAux lookup env i r).1.length ≤ r ∧
      ((sweepAux lookup env i r).2 = TraceState.reached ∨
        (sweepAux lookup env i r).2 = TraceState.exhausted) ∧
      ((sweepAux lookup env i r).2 = TraceState.reached →
        0 < (sweepAux lookup env i r).1.length ∧
        pingB lookup env (i + (sweepAux lookup env i r).1.length - 1) = true ∧
        ∀ h, i ≤ h → h < i + (sweepAux lookup env i r).1.length - 1 →
          pingB lookup env h = false) ∧
      ((sweepAux lookup env i r).2 = TraceState.exhausted →
        (sweepAux lookup env i r).1.length = r ∧
        ∀ h, i ≤ h → h < i + r → pingB lookup env h = false) := by
  intro r
  induction r with
  | zero =>
    intro i
    refine ⟨rfl, Nat.le_refl 0, Or.inr rfl, ?_, ?_⟩
    · intro hco
      simp [sweepAux] at hco
    · intro _
      refine ⟨rfl, ?_⟩
      intro h hh1 hh2
      exact absurd hh2 (by omega)
  | succ n ih =>
    intro i
    obtain ⟨ih1, ih2, ih3, ih4, ih5⟩ := ih (i + 1)
    cases hpb : (ping lookup (env i) i).1 with
    | true =>
      have hpB : pingB lookup env i = true := hpb
      have hred : sweepAux lookup env i (n + 1) =
          ([(i, (ping lookup (env i) i).2)], TraceState.reached) := by
        simp [sweepAux, hpb]
      rw [hred]
      refine ⟨by simp, by simp, Or.inl rfl, ?_, ?_⟩
      · intro _
        refine ⟨by simp, ?_, ?_⟩
        · simpa using hpB
        · intro h hh1 hh2
          simp only [List.length_cons, List.length_nil] at hh2
          exact absurd hh2 (by omega)
      · intro hco
        simp at hco
    | false =>
      have hpB : pingB lookup env i = false := hpb
      have hred : sweepAux lookup env i (n + 1) =
          ((i, (ping lookup (env i) i).2) :: (sweepAux lookup env (i + 1) n).1,
            (sweepAux lookup env (i + 1) n).2) := by
        simp [sweepAux, hpb]
      rw [hred]
      refine ⟨?_, ?_, ih3, ?_, ?_⟩
      · simp only [List.map_cons, List.length_cons]
        rw [ih1, List.range'_succ]
      · simp only [List.length_cons]
        omega
      · intro hco
        obtain ⟨g1, g2, g3⟩ := ih4 hco
        refine ⟨by simp, ?_, ?_⟩
        · simp only [List.length_cons]
          rw [show i + ((sweepAux lookup env (i + 1) n).1.length + 1) - 1
              = i + 1 + (sweepAux lookup env (i + 1) n).1.length - 1 by omega]
          exact g2
        · intro h hh1 hh2
          simp only [List.length_cons] at hh2
          by_cases hhi : h = i
          · subst hhi
            exact hpB
          · exact g3 h (by omega) (by omega)
      · intro hco
        obtain ⟨g1, g2⟩ := ih5 hco
        constructor
        · simp only [List.length_cons]
          omega
        · intro h hh1 hh2
          by_cases hhi : h = i
          · subst hhi
            exact hpB
          · exact g2 h (by omega) (by omega)

/-- A hop whose exchange returns a non-nil error is reported `ERROR` and
does not stop the sweep (`ping` returns `false`). -/
theorem ping_of_err (lookup : String → List String) (env : ExchangeEnv)
    (ttl : Nat) (e : TrError)
    (h : (socketExchange env probeLen ttl AttemptsCount).2.err = some e) :
    ping lookup env ttl = (false, HopReport.errorLine) := by
  simp only [ping, h]

/-- An attempt whose write succeeds in full and whose read errs has that
read error as its outcome. -/
theorem attemptOutcome_read_err (bLen : Nat) (a : AttemptEnv) (e : TrError)
    (hw : a.writeResult = Except.ok bLen) (hr : a.readResult = Except.error e) :
    attemptOutcome bLen a = some e := by
  simp [attemptOutcome, stepAttempt, hw, hr]

/-- If the very first attempt errs, the whole exchange errs with that
error. -/
theorem socketExchange_err_of_first (env : ExchangeEnv)
    (bLen ttl attempts : Nat) (e : TrError)
    (hl : env.listenResult = none) (hd : env.deadlineResult = none)
    (h0 : attemptOutcome bLen (env.attempt 0) = some e) (hpos : 0 < attempts) :
    (socketExchange env bLen ttl attempts).2.err = some e := by
  have habort := runAttempts_abort env.attempt bLen 0 0 attempts initLoopState e
    (by intro m hm; omega) (by simpa using h0) hpos
  simp only [socketExchange, hl, hd]
  rw [habort.1]

/-- When every hop's ping fails with an error line, the sweep visits
every hop-limit in order, reports each as an error, and exhausts. -/
theorem sweepAux_all_error (lookup : String → List String)
    (env : Nat → ExchangeEnv)
    (hp : ∀ h, ping lookup (env h) h = (false, HopReport.errorLine)) :
    ∀ r i, sweepAux lookup env i r =
      ((List.range' i r).map (fun h => (h, HopReport.errorLine)),
        TraceState.exhausted) := by
  intro r
  induction r with
  | zero => intro i; rfl
  | succ n ih =>
    intro i
    simp [sweepAux, hp i, ih (i + 1), List.range'_succ]

/-! ## Claim theorems -/

/-- Network environment refuting the failure clause of C1: every reply is
a well-formed `DestinationUnreachable` message, so no attempt yields
`EchoReply` or `TimeExceeded`. -/
def envC1 : ExchangeEnv :=
  { listenResult := none, deadlineResult := none,
    attempt := fun _ =>
      { writeResult := .ok 64, readResult := .ok "192.0.2.1",
        parseResult := .ok ⟨ICMPTypeDestinationUnreachable⟩, rtt := 5 } }

/-- C1 (code bug): the post-loop reduction of `socketExchange` does not
implement the `Error` tier of the claimed precedence.  With three
attempts whose replies all parse as `DestinationUnreachable` — so no
attempt yielded `EchoReply` or `TimeExceeded` — the claim says the
exchange fails, but the code returns a nil error with classification
`TimeExceeded`: the loop variable `t` starts at `TimeExceeded` and is
only ever overwritten with `EchoReply`, so the `default` arm of the
`switch` (the code's own `// Invalid ICMPType` failure path) is
unreachable. -/
theorem C1_reduction_never_fails :
    (socketExchange envC1 64 7 3).2.err = none ∧
    (socketExchange envC1 64 7 3).2.icmpType = some ICMPTypeTimeExceeded := by
  decide

/-- Network environment for C2: a single attempt whose reply parses to a
`DestinationUnreachable` message. -/
def envC2 : ExchangeEnv :=
  { listenResult := none, deadlineResult := none,
    attempt := fun _ =>
      { writeResult := .ok 32, readResult := .ok "198.51.100.9",
        parseResult := .ok ⟨ICMPTypeDestinationUnreachable⟩, rtt := 2 } }

/-- C2 (code bug): a reply whose type is neither `EchoReply` nor
`TimeExceeded` does not make the exchange fail with the
`UnexpectedTypeError`.  The only attempt's reply is
`DestinationUnreachable`, yet the exchange returns a nil error and
classification `TimeExceeded` — the hop is reported as an intermediate
hop, not as an `Error`.  The `default: // Invalid ICMPType` arm the
code wrote for this case is dead, because `t` is never assigned any
type other than `EchoReply`. -/
theorem C2_unexpected_type_not_failed :
    (socketExchange envC2 32 5 1).2.err = none ∧
    (socketExchange envC2 32 5 1).2.icmpType = some ICMPTypeTimeExceeded := by
  decide

/-- Network environment for the C5 counterexample: two attempts, both
fully successful. -/
def envC5 : ExchangeEnv :=
  { listenResult := none, deadlineResult := none,
    attempt := fun _ =>
      { writeResult := .ok 16, readResult := .ok "203.0.113.9",
        parseResult := .ok ⟨ICMPTypeEchoReply⟩, rtt := 4 } }

/-- C5 counterexample: in an exchange with two attempts both of which
send, the read deadline is set exactly once — not once per attempt, as
the claim states (that would require two `setReadDeadline` events).
`SetReadDeadline` is called before the loop in the source, so later
attempts reuse the deadline of the first. -/
theorem C5_deadline_counterexample :
    Event.send 0 ∈ (socketExchange envC5 16 3 2).1 ∧
    Event.send 1 ∈ (socketExchange envC5 16 3 2).1 ∧
    (socketExchange envC5 16 3 2).1.count Event.setReadDeadline = 1 := by
  decide

/-- C3: within one exchange call, if every attempt before index `k` runs
to completion and attempt `k` errs — a send failure, a short write, a
read timeout, or a parse failure, i.e. any `attemptOutcome` of
`some e` — then the whole exchange fails with that error `e` and the
probe of no attempt after `k` is ever sent. -/
theorem C3_attempt_error_aborts (env : ExchangeEnv) (bLen ttl attempts k : Nat)
    (e : TrError)
    (hl : env.listenResult = none) (hd : env.deadlineResult = none)
    (hk : k < attempts)
    (hpre : ∀ j, j < k → attemptOutcome bLen (env.attempt j) = none)
    (hfail : attemptOutcome bLen (env.attempt k) = some e) :
    (socketExchange env bLen ttl attempts).2.err = some e ∧
    ∀ j, k < j → Event.send j ∉ (socketExchange env bLen ttl attempts).1 := by
  have habort := runAttempts_abort env.attempt bLen k 0 attempts initLoopState e
    (by intro m hm; simpa using hpre m hm) (by simpa using hfail) hk
  constructor
  · simp only [socketExchange, hl, hd]
    rw [habort.1]
  · intro j hj
    rw [socketExchange_events env bLen ttl attempts hl hd]
    intro hmem
    simp at hmem
    exact habort.2 j (by omega) hmem

/-- Environment for the C3 witness: attempt 0 completes, attempt 1 times
out on the read, attempt 2 would succeed but must never run. -/
def envC3 : ExchangeEnv :=
  { listenResult := none, deadlineResult := none,
    attempt := fun i =>
      if i = 1 then
        { writeResult := .ok 24, readResult := .error TrError.readTimeout,
          parseResult := .error TrError.parseFailed, rtt := 0 }
      else
        { writeResult := .ok 24, readResult := .ok "10.1.1.1",
          parseResult := .ok ⟨ICMPTypeTimeExceeded⟩, rtt := 9 } }

/-- Witness for C3: with `envC3`, three attempts and the failure at
attempt 1, the exchange errs with the timeout and attempt 2 never
sends. -/
theorem C3_attempt_error_aborts_witness :
    (1 < 3 ∧ attemptOutcome 24 (envC3.attempt 1) = some TrError.readTimeout) ∧
    (socketExchange envC3 24 6 3).2.err = some TrError.readTimeout ∧
    Event.send 2 ∉ (socketExchange envC3 24 6 3).1 :=
  ⟨⟨by decide, by decide⟩,
    (C3_attempt_error_aborts envC3 24 6 3 1 TrError.readTimeout rfl rfl (by decide)
      (by decide) (by decide)).1,
    (C3_attempt_error_aborts envC3 24 6 3 1 TrError.readTimeout rfl rfl (by decide)
      (by decide) (by decide)).2 2 (by decide)⟩

/-- C5 as amended: within one exchange call whose socket was created,
the read deadline is set exactly once, immediately after socket
creation — hence before the first attempt's send — and never again;
the remaining attempts reuse that deadline. -/
theorem C5_deadline_set_once (env : ExchangeEnv) (bLen ttl attempts : Nat)
    (hl : env.listenResult = none) :
    ∃ rest, (socketExchange env bLen ttl attempts).1 =
        Event.listen :: Event.setReadDeadline :: rest ∧
      Event.setReadDeadline ∉ rest := by
  cases hd : env.deadlineResult with
  | some e =>
    refine ⟨[Event.closeConn], ?_, by simp⟩
    simp only [socketExchange, hl, hd]
  | none =>
    refine ⟨Event.setTTL ttl ::
      ((runAttempts env.attempt bLen 0 attempts initLoopState).1 ++
        [Event.closeConn]), socketExchange_events env bLen ttl attempts hl hd, ?_⟩
    intro hmem
    simp at hmem
    exact runAttempts_no_deadline env.attempt bLen attempts 0 initLoopState hmem

/-- Witness for C5's amended statement at `envC5`: the event trace of
the two-attempt exchange contains exactly one `setReadDeadline`. -/
theorem C5_deadline_set_once_witness :
    (socketExchange envC5 16 3 2).1.count Event.setReadDeadline = 1 := by
  obtain ⟨rest, heq, hmem⟩ := C5_deadline_set_once envC5 16 3 2 rfl
  rw [heq]
  simp [List.count_cons, List.count_eq_zero.mpr hmem]

/-- C7: for every payload size `S ≥ 0` the Packet Builder fills a buffer
of exactly `S` bytes that is the truncation to `S` bytes of whole
repetitions of the fixed 4-byte chunk `"DATA"`; determinism in `S` is
definitional (`buildPayload` is a function of `S` alone). -/
theorem C7_payload_pattern (S : Nat) :
    (buildPayload S).length = S ∧
    buildPayload S =
      (List.flatten (List.replicate (S / 4 + 1) dataChunk)).take S := by
  refine ⟨?_, buildPayload_eq_take S⟩
  rw [buildPayload_eq_take S, List.length_take, length_flatten_rep]
  omega

/-- Reverse-DNS oracle for C8: each of the two addresses resolves to its
own distinct name (with the trailing dot `net.LookupAddr` returns). -/
def lookupC8 : String → List String := fun s =>
  if s = "1.1.1.1" then ["one.example."]
  else if s = "8.8.8.8" then ["eight.example."] else []

/-- C8 (code bug): the presenter does not resolve each remaining address
itself.  With two distinct addresses, each resolving to its own name,
the code annotates the second address with the first address's name:
the loop body of `createPeersString` calls
`net.LookupAddr(peersArray[0].String())` — index `0`, not the loop
index — so every entry shows the first address's reverse-DNS names. -/
theorem C8_lookup_uses_first_address :
    createPeersString lookupC8 ["1.1.1.1", "8.8.8.8"] =
      "[1.1.1.1 (one.example)  8.8.8.8 (one.example)]" ∧
    createPeersString lookupC8 ["1.1.1.1", "8.8.8.8"] ≠
      "[1.1.1.1 (one.example)  8.8.8.8 (eight.example)]" := by
  decide

/-- C9: presenting `n ≥ 1` copies of one address yields exactly the
output of presenting it once, for every reverse-DNS oracle: the
`peersAreIdentical` scan collapses the array to its first element, and
both sides then run the same loop over a one-element array. -/
theorem C9_identical_collapse (lookup : String → List String) (a : String)
    (n : Nat) (h : 1 ≤ n) :
    createPeersString lookup (List.replicate n a) =
      createPeersString lookup [a] := by
  have h0 : (List.replicate n a)[0]? = some a :=
    List.getElem?_replicate_of_lt (by omega)
  have hall := allIdentical_replicate a n
  have hall1 : allIdentical [a] = true := rfl
  simp [createPeersString, hall, hall1, h0]

/-- Reverse-DNS oracle for the C9 witness: no names known. -/
def lookupC9w : String → List String := fun _ => []

/-- Witness for C9 at `n = 5`, `a = "10.0.0.1"`. -/
theorem C9_identical_collapse_witness :
    1 ≤ 5 ∧
    createPeersString lookupC9w (List.replicate 5 "10.0.0.1") =
      createPeersString lookupC9w ["10.0.0.1"] :=
  ⟨by decide, C9_identical_collapse lookupC9w "10.0.0.1" 5 (by decide)⟩

/-- C10: whenever `socketExchange` returns a nil error, its
classification pointer is non-nil and holds `EchoReply` or
`TimeExceeded`, the duration and responder lists contain exactly one
entry per attempt, and for a positive attempt count the responder list
handed to the Address Presenter is non-empty — so `createPeersString`'s
access of `peersArray[0]` is safe. -/
theorem C10_success_shape (env : ExchangeEnv) (bLen ttl attempts : Nat)
    (h : (socketExchange env bLen ttl attempts).2.err = none) :
    ((socketExchange env bLen ttl attempts).2.icmpType = some ICMPTypeEchoReply ∨
      (socketExchange env bLen ttl attempts).2.icmpType = some ICMPTypeTimeExceeded) ∧
    (socketExchange env bLen ttl attempts).2.durations.length = attempts ∧
    (socketExchange env bLen ttl attempts).2.peers.length = attempts ∧
    (0 < attempts → (socketExchange env bLen ttl attempts).2.peers ≠ []) := by
  obtain ⟨st, hrun, hcls, hres⟩ := socketExchange_success env bLen ttl attempts h
  have hlen := runAttempts_ok_lengths env.attempt bLen attempts 0 initLoopState st hrun
  simp only [initLoopState, List.length_nil, Nat.zero_add] at hlen
  rw [hres]
  refine ⟨?_, hlen.1, hlen.2, ?_⟩
  · rcases hcls with h1 | h1
    · exact Or.inl (by rw [h1])
    · exact Or.inr (by rw [h1])
  · intro hpos hnil
    have hnil2 : st.peers = [] := by simpa using hnil
    have h2 := hlen.2
    rw [hnil2] at h2
    simp at h2
    omega

/-- C4: the sweep of `tracert` realizes the claimed state machine.  The
probed hop-limits are consecutive from 1 (initial state `Sweeping(1)`,
incremented each non-reached step); at most `MaxTTL` hops are probed;
the final state is one of the two terminal states; `Reached` holds
exactly when the last probed hop is the first whose ping returned true
(so no hop-limit beyond the first `EchoReply` is ever probed); and
when no hop up to `MaxTTL` pings true the sweep probes exactly
`MaxTTL` hops and ends `Exhausted`. -/
theorem C4_state_machine (lookup : String → List String)
    (env : Nat → ExchangeEnv) :
    (tracert lookup env).1.map Prod.fst =
      List.range' 1 (tracert lookup env).1.length ∧
    (tracert lookup env).1.length ≤ MaxTTL ∧
    ((tracert lookup env).2 = TraceState.reached ∨
      (tracert lookup env).2 = TraceState.exhausted) ∧
    ((tracert lookup env).2 = TraceState.reached →
      pingB lookup env (tracert lookup env).1.length = true ∧
      ∀ h, 1 ≤ h → h < (tracert lookup env).1.length →
        pingB lookup env h = false) ∧
    ((tracert lookup env).2 = TraceState.exhausted →
      (tracert lookup env).1.length = MaxTTL ∧
      ∀ h, 1 ≤ h → h ≤ MaxTTL → pingB lookup env h = false) := by
  unfold tracert
  obtain ⟨s1, s2, s3, s4, s5⟩ := sweepAux_spec lookup env MaxTTL 1
  refine ⟨s1, s2, s3, ?_, ?_⟩
  · intro hco
    obtain ⟨g1, g2, g3⟩ := s4 hco
    constructor
    · rwa [show 1 + (sweepAux lookup env 1 MaxTTL).1.length - 1
          = (sweepAux lookup env 1 MaxTTL).1.length by omega] at g2
    · intro h hh1 hh2
      exact g3 h hh1 (by omega)
  · intro hco
    obtain ⟨g1, g2⟩ := s5 hco
    exact ⟨g1, fun h hh1 hh2 => g2 h hh1 (by omega)⟩

/-- Per-hop environments for the C4 witness: every attempt of hop 2
parses an `EchoReply`, every other hop a `TimeExceeded`. -/
def envC4 : Nat → ExchangeEnv := fun h =>
  { listenResult := none, deadlineResult := none,
    attempt := fun _ =>
      { writeResult := .ok probeLen, readResult := .ok "10.0.0.254",
        parseResult :=
          .ok ⟨if h = 2 then ICMPTypeEchoReply else ICMPTypeTimeExceeded⟩,
        rtt := 3 } }

/-- Reverse-DNS oracle for the C4 witness: no names known. -/
def lookupC4 : String → List String := fun _ => []

/-- Witness for C4: with the destination answering at hop 2, the sweep
ends `Reached` after probing exactly hops 1 and 2. -/
theorem C4_state_machine_witness :
    (tracert lookupC4 envC4).2 = TraceState.reached ∧
    (tracert lookupC4 envC4).1.length = 2 ∧
    pingB lookupC4 envC4 (tracert lookupC4 envC4).1.length = true := by
  have h := C4_state_machine lookupC4 envC4
  have hre : (tracert lookupC4 envC4).2 = TraceState.reached := by decide
  exact ⟨hre, by decide, (h.2.2.2.1 hre).1⟩

/-- C6: hop-level errors are not fatal to the trace.  When every attempt
of every hop times out on the read (after a full write, with socket
setup succeeding), the sweep runs exactly `MaxTTL` hops, in order,
reports each as an `ERROR` line, and terminates in the `Exhausted`
state. -/
theorem C6_all_timeouts_exhausts (lookup : String → List String)
    (env : Nat → ExchangeEnv)
    (hl : ∀ h, (env h).listenResult = none)
    (hd : ∀ h, (env h).deadlineResult = none)
    (hw : ∀ h i, ((env h).attempt i).writeResult = Except.ok probeLen)
    (hr : ∀ h i, ((env h).attempt i).readResult = Except.error TrError.readTimeout) :
    (tracert lookup env).1.length = MaxTTL ∧
    (tracert lookup env).1.map Prod.fst = List.range' 1 MaxTTL ∧
    (∀ p ∈ (tracert lookup env).1, p.2 = HopReport.errorLine) ∧
    (tracert lookup env).2 = TraceState.exhausted := by
  have hping : ∀ h, ping lookup (env h) h = (false, HopReport.errorLine) := by
    intro h
    apply ping_of_err lookup (env h) h TrError.readTimeout
    exact socketExchange_err_of_first (env h) probeLen h AttemptsCount
      TrError.readTimeout (hl h) (hd h)
      (attemptOutcome_read_err probeLen _ TrError.readTimeout (hw h 0) (hr h 0))
      (by decide)
  have hall := sweepAux_all_error lookup env hping MaxTTL 1
  unfold tracert
  rw [hall]
  refine ⟨by simp, ?_, ?_, rfl⟩
  · rw [List.map_map,
      show (Prod.fst ∘ fun h : Nat => (h, HopReport.errorLine)) = id from rfl,
      List.map_id]
  intro p hp
  simp only [List.mem_map] at hp
  obtain ⟨a, -, rfl⟩ := hp
  rfl

/-- Per-hop environments for the C6 witness: every attempt of every hop
times out. -/
def envC6 : Nat → ExchangeEnv := fun _ =>
  { listenResult := none, deadlineResult := none,
    attempt := fun _ =>
      { writeResult := .ok probeLen, readResult := .error TrError.readTimeout,
        parseResult := .error TrError.parseFailed, rtt := 0 } }

/-- Reverse-DNS oracle for the C6 witness: no names known. -/
def lookupC6 : String → List String := fun _ => []

/-- Witness for C6 at `envC6`. -/
theorem C6_all_timeouts_exhausts_witness :
    (tracert lookupC6 envC6).1.length = MaxTTL ∧
    (tracert lookupC6 envC6).2 = TraceState.exhausted := by
  have h := C6_all_timeouts_exhausts lookupC6 envC6 (fun _ => rfl) (fun _ => rfl)
    (fun _ _ => rfl) (fun _ _ => rfl)
  exact ⟨h.1, h.2.2.2⟩

/-- Environment for the C10 witness: three fully successful attempts. -/
def envC10 : ExchangeEnv :=
  { listenResult := none, deadlineResult := none,
    attempt := fun _ =>
      { writeResult := .ok 40, readResult := .ok "172.16.0.1",
        parseResult := .ok ⟨ICMPTypeTimeExceeded⟩, rtt := 11 } }

/-- Witness for C10 at `envC10` with three attempts. -/
theorem C10_success_shape_witness :
    (socketExchange envC10 40 4 3).2.err = none ∧
    ((socketExchange envC10 40 4 3).2.icmpType = some ICMPTypeEchoReply ∨
      (socketExchange envC10 40 4 3).2.icmpType = some ICMPTypeTimeExceeded) ∧
    (socketExchange envC10 40 4 3).2.durations.length = 3 ∧
    (socketExchange envC10 40 4 3).2.peers.length = 3 ∧
    (socketExchange envC10 40 4 3).2.peers ≠ [] := by
  have h := C10_success_shape envC10 40 4 3 (by decide)
  exact ⟨by decide, h.1, h.2.1, h.2.2.1, h.2.2.2 (by decide)⟩

end Traceroute
